import Mathlib

/-!
Verification development for `sample/show_nms.py`, a tool that reads a text
table of labeled bounding boxes and overlays them on an image.

Shallow embedding conventions:
* A line of the input file is a `List Char` (the trailing newline produced by
  Python's file iteration is dropped: it can affect neither the header regex
  match, which only inspects a prefix ending at a colon, nor `str.split()`,
  which discards whitespace).
* Python `float` values arising here are decimal literals from the input text;
  they are embedded as exact rationals `PyFloat` (an integer numerator over a
  natural denominator, normalized by gcd).  IEEE-754 rounding is abstracted to
  exact rational arithmetic.  The float grammar covers sign, integer part,
  fractional part and scientific exponent; the `inf`/`nan` spellings and digit
  underscores accepted by CPython are not modelled (no claim involves them).
* Python's `re` module: the patterns used by the program are `([\w ]+):` and
  `([\w ]+)(#[0-9A-Fa-f]{6})?`, both used through `re.match` (anchored at the
  start of the string, not at its end).  Since `:` and `#` are neither word
  characters nor spaces, the greedy group `([\w ]+)` always captures exactly
  the maximal leading run of word characters and spaces, and no backtracking
  can succeed where that maximal run fails; the embeddings below use
  `takeWhile` accordingly.  `\w` is modelled over ASCII (letters, digits,
  underscore); all inputs in the claims are ASCII.
* A Python `dict` (insertion-ordered since 3.7) is an association list;
  assignment to an existing key keeps its position, assignment to a fresh key
  appends at the end.
* Exceptions (`ValueError` from `float`, `KeyError` from a missing dict key,
  `TypeError` from unpacking `None`) are embedded with `Except PyError`.
* A PIL image is embedded as its size plus the ordered trace of rectangle
  outlines drawn on it; `ImageDraw.rectangle` appends to that trace.
-/

namespace ShowNms

/-- Errors a run of the script can raise; they all terminate the process. -/
inductive PyError where
  | valueError
  | keyError
  | typeError
deriving DecidableEq

/-- Decidable equality of run results, so that concrete runs can be settled
by `decide`. -/
instance {ε α : Type} [DecidableEq ε] [DecidableEq α] : DecidableEq (Except ε α) :=
  fun x y =>
    match x, y with
    | .error a, .error b =>
      if h : a = b then .isTrue (by rw [h]) else .isFalse fun hc => h (by cases hc; rfl)
    | .error _, .ok _ => .isFalse fun hc => Except.noConfusion hc
    | .ok _, .error _ => .isFalse fun hc => Except.noConfusion hc
    | .ok a, .ok b =>
      if h : a = b then .isTrue (by rw [h]) else .isFalse fun hc => h (by cases hc; rfl)

/-- ASCII model of Python's regex class `\w`: letters, digits, underscore. -/
def isWordChar (c : Char) : Bool :=
  c.isAlpha || c.isDigit || c = '_'

/-- Characters matched by the regex class `[\w ]` used for class names. -/
def isWordSpace (c : Char) : Bool :=
  isWordChar c || c = ' '

/-- Hexadecimal digits, the regex class `[0-9A-Fa-f]`. -/
def pyIsHex (c : Char) : Bool :=
  c.isDigit || ('A' ≤ c && c ≤ 'F') || ('a' ≤ c && c ≤ 'f')

/-- ASCII whitespace recognized by Python's `str.split()` with no argument. -/
def isPySpace (c : Char) : Bool :=
  c = ' ' || c = '\t' || c = '\n' || c = '\r' || c = '\x0b' || c = '\x0c'

/-- Embedding of `re.match(r"([\w ]+):", line)` from `load_boxes` (line 34):
the match succeeds iff the maximal leading run of word/space characters is
nonempty and is followed immediately by a colon; the run is group 1. -/
def matchHeader (line : List Char) : Option (List Char) :=
  let run := line.takeWhile isWordSpace
  if run.isEmpty then none
  else
    match line.drop run.length with
    | ':' :: _ => some run
    | _ => none

/-- Accumulator loop for `pySplit`. -/
def pySplitAux : List Char → List Char → List (List Char)
  | [], acc => if acc.isEmpty then [] else [acc.reverse]
  | c :: rest, acc =>
    if isPySpace c then
      if acc.isEmpty then pySplitAux rest [] else acc.reverse :: pySplitAux rest []
    else pySplitAux rest (c :: acc)

/-- Embedding of Python `str.split()` (no separator): split on runs of
whitespace and discard empty pieces. -/
def pySplit (l : List Char) : List (List Char) :=
  pySplitAux l []

/-- Exact rational value of a parsed Python float literal. -/
structure PyFloat where
  num : ℤ
  den : ℕ
deriving DecidableEq

/-- Normalizing constructor: `mkFloat n d` is the value `n / d` in lowest
terms (and `⟨0, 0⟩` in the never-hit case `d = 0`). -/
def mkFloat (n : ℤ) (d : ℕ) : PyFloat :=
  if d = 0 then ⟨0, 0⟩
  else
    let g := n.natAbs.gcd d
    ⟨n / (g : ℤ), d / g⟩

/-- Rational value denoted by a `PyFloat`. -/
def PyFloat.toRat (x : PyFloat) : ℚ :=
  (x.num : ℚ) / (x.den : ℚ)

/-- Numeric value of a digit run (most significant first). -/
def digitsVal (ds : List Char) : ℕ :=
  ds.foldl (fun a c => 10 * a + (c.toNat - '0'.toNat)) 0

/-- Optional leading sign of a Python float literal; returns (negative?, rest). -/
def parseSign : List Char → Bool × List Char
  | '-' :: rest => (true, rest)
  | '+' :: rest => (false, rest)
  | s => (false, s)

/-- Optional exponent suffix `(e|E)[+-]?digits` of a Python float literal;
`none` on trailing garbage, `some e` with the signed decimal exponent. -/
def parseExpSuffix : List Char → Option ℤ
  | [] => some 0
  | c :: rest =>
    if c = 'e' ∨ c = 'E' then
      let (neg, rest1) := parseSign rest
      let ds := rest1.takeWhile Char.isDigit
      if ds.isEmpty || !(rest1.drop ds.length).isEmpty then none
      else some (if neg then -(digitsVal ds : ℤ) else (digitsVal ds : ℤ))
    else none

/-- Scale a signed decimal mantissa `n / d` by `10 ^ e`. -/
def applyExp (n : ℤ) (d : ℕ) (e : ℤ) : PyFloat :=
  if 0 ≤ e then mkFloat (n * (10 : ℤ) ^ e.toNat) d
  else mkFloat n (d * 10 ^ (-e).toNat)

/-- Embedding of Python's `float(token)` conversion (line 39), restricted to
the decimal grammar `[+-]? (digits [. digits*] | . digits) [(e|E)[+-]?digits]`;
`none` embeds the `ValueError` raised on a non-numeric token. -/
def parseFloat (s : List Char) : Option PyFloat :=
  let (neg, s1) := parseSign s
  let ip := s1.takeWhile Char.isDigit
  let s2 := s1.drop ip.length
  let signed : ℕ → ℤ := fun n => if neg then -(n : ℤ) else (n : ℤ)
  match s2 with
  | '.' :: t =>
    let fp := t.takeWhile Char.isDigit
    if ip.isEmpty && fp.isEmpty then none
    else
      (parseExpSuffix (t.drop fp.length)).map fun e =>
        applyExp (signed (digitsVal ip * 10 ^ fp.length + digitsVal fp)) (10 ^ fp.length) e
  | _ =>
    if ip.isEmpty then none
    else (parseExpSuffix s2).map fun e => applyExp (signed (digitsVal ip)) 1 e

/-- Embedding of `tuple(map(float, line.split()))` (line 39): every
whitespace-separated token is converted to a float; there is no check on how
many tokens the line has, so the resulting tuple can have any arity.
`none` embeds the `ValueError` when some token is non-numeric. -/
def parseBoxLine (line : List Char) : Option (List PyFloat) :=
  (pySplit line).mapM parseFloat

/-- Name of a box-table class: the text captured by `([\w ]+)`. -/
abbrev ClassName := List Char

/-- The box table: a Python dict from class name to list of box tuples,
embedded as an insertion-ordered association list. -/
abbrev BoxTable := List (ClassName × List (List PyFloat))

/-- Python dict key-membership test. -/
def dictMem (k : ClassName) (t : BoxTable) : Bool :=
  t.any fun e => e.1 = k

/-- Python dict assignment `t[k] = v`: replace in place if the key exists
(keeping its position), otherwise append at the end. -/
def dictSet (k : ClassName) (v : List (List PyFloat)) : BoxTable → BoxTable
  | [] => [(k, v)]
  | e :: rest => if e.1 = k then (k, v) :: rest else e :: dictSet k v rest

/-- Python `t[k].append(b)` for a key that is present: extend that key's list
in place. -/
def dictAppend (k : ClassName) (b : List PyFloat) : BoxTable → BoxTable
  | [] => []
  | e :: rest => if e.1 = k then (e.1, e.2 ++ [b]) :: rest else e :: dictAppend k b rest

/-- Python dict lookup `t[k]` as an option. -/
def dictFind (k : ClassName) : BoxTable → Option (List (List PyFloat))
  | [] => none
  | e :: rest => if e.1 = k then some e.2 else dictFind k rest

/-- The loop of `load_boxes` (lines 33-40): scan the lines keeping the
"current" class; a header line starts a fresh (empty) list for its class, any
other line is converted to a float tuple and appended to the current class's
list.  `classes[current]` with `current = None`, or with a key that is absent,
raises `KeyError`; a non-numeric token raises `ValueError` first, since the
tuple is built before the append. -/
def loadGo : List (List Char) → Option ClassName → BoxTable → Except PyError BoxTable
  | [], _, classes => .ok classes
  | line :: rest, current, classes =>
    match matchHeader line with
    | some name => loadGo rest (some name) (dictSet name [] classes)
    | none =>
      match parseBoxLine line with
      | none => .error .valueError
      | some box =>
        match current with
        | none => .error .keyError
        | some c =>
          if dictMem c classes then loadGo rest (some c) (dictAppend c box classes)
          else .error .keyError

/-- Embedding of `load_boxes` (lines 29-41), taking the file's lines. -/
def loadBoxes (lines : List (List Char)) : Except PyError BoxTable :=
  loadGo lines none []

/-- The optional group `(#[0-9A-Fa-f]{6})?` of `parse_item`'s regex, tried at
the text following the class-name run: it matches iff that text starts with
`#` followed by six hex digits (anything further is left unconsumed). -/
def inlineColor (rest : List Char) : Option (List Char) :=
  match rest with
  | '#' :: t =>
    if (t.take 6).length = 6 && (t.take 6).all pyIsHex then some ('#' :: t.take 6)
    else none
  | _ => none

/-- Embedding of `parse_item` (lines 60-65): `re.match` the specifier against
`([\w ]+)(#[0-9A-Fa-f]{6})?`; on success return `m.groups(color)`, i.e. the
class name and the inline color with `color` substituted when the second group
did not participate; on failure return `None`. -/
def parseItem (s : List Char) (color : List Char) : Option (ClassName × List Char) :=
  let run := s.takeWhile isWordSpace
  if run.isEmpty then none
  else some (run, (inlineColor (s.drop run.length)).getD color)

/-- Embedding of the item-selection step of `__main__` (lines 96-99): with an
explicit `--items` list each specifier goes through `parse_item` (which can
yield `None`); with no list, every class of the table is paired with the
default color (those entries are always present, embedded as `some`). -/
def selectItems (itemsArg : Option (List (List Char))) (classes : BoxTable)
    (color : List Char) : List (Option (ClassName × List Char)) :=
  match itemsArg with
  | some specs => specs.map fun s => parseItem s color
  | none => classes.map fun e => some (e.1, color)

/-- A PIL image: its pixel size plus the ordered trace of rectangle outlines
drawn on it.  Each trace entry is `(x0, y0, x1, y1, color)` as passed to
`ImageDraw.rectangle`. -/
structure PILImage where
  width : ℕ
  height : ℕ
  rects : List (ℤ × ℤ × ℤ × ℤ × List Char)
deriving DecidableEq

/-- Embedding of `int(...)` applied to the product of a dimension and a box
fraction `x = num/den`: Python `int()` truncates toward zero, which on the
exact rational `(w * num) / den` is T-division. -/
def pyInt (w : ℕ) (x : PyFloat) : ℤ :=
  Int.tdiv ((w : ℤ) * x.num) (x.den : ℤ)

/-- One iteration of the loop of `draw_boxes` (lines 52-53): draw the outline
rectangle `(int(w*x1), int(h*y1), int(w*x2), int(h*y2))` in the given color. -/
def drawBox (im : PILImage) (y1 x1 y2 x2 : PyFloat) (color : List Char) : PILImage :=
  { im with
    rects := im.rects ++
      [(pyInt im.width x1, pyInt im.height y1, pyInt im.width x2, pyInt im.height y2, color)] }

/-- Embedding of `draw_boxes` (lines 48-53).  The unpacking
`for y1,x1,y2,x2 in boxes` raises `ValueError` on a tuple whose arity is not
4 (the loaded table never checked arities).  On that error the Python image
keeps the rectangles already drawn, but nothing further observes it because
the exception aborts the run before any save; the embedding simply stops. -/
def drawBoxes (im : PILImage) (boxes : List (List PyFloat)) (color : List Char) :
    Except PyError PILImage :=
  match boxes with
  | [] => .ok im
  | box :: rest =>
    match box with
    | [y1, x1, y2, x2] => drawBoxes (drawBox im y1 x1 y2 x2 color) rest color
    | _ => .error .valueError

/-- Embedding of the render loop of `__main__` (lines 102-103):
`for item,color in items: draw_boxes(im, classes[item], color)`.  Unpacking a
`None` produced by `parse_item` raises `TypeError`; `classes[item]` raises
`KeyError` when the class is absent from the table. -/
def renderItems (classes : BoxTable) : List (Option (ClassName × List Char)) →
    PILImage → Except PyError PILImage
  | [], im => .ok im
  | none :: _, _ => .error .typeError
  | some (name, color) :: rest, im =>
    match dictFind name classes with
    | none => .error .keyError
    | some boxes =>
      match drawBoxes im boxes color with
      | .error e => .error e
      | .ok im2 => renderItems classes rest im2

/-- Embedding of the tail of `__main__` (lines 102-109): the output file is
written only after the whole render loop succeeded; any exception inside the
loop reaches the top level first, so nothing is saved. -/
def savedImage (classes : BoxTable) (items : List (Option (ClassName × List Char)))
    (im : PILImage) (outPath : Option (List Char)) : Option (List Char × PILImage) :=
  match renderItems classes items im with
  | .error _ => none
  | .ok im2 => outPath.map fun p => (p, im2)

/-- Truncation toward zero of a rational, the rounding `int()` performs on a
nonintegral value (floor for nonnegative values, ceiling for negative ones). -/
def ratTrunc (q : ℚ) : ℤ :=
  if q < 0 then ⌈q⌉ else ⌊q⌋

/-- Lines of a box-table file presented as groups: each group is one class
header followed by that class's box lines. -/
def flattenGroups : List (ClassName × List (List Char)) → List (List Char)
  | [] => []
  | g :: gs => (g.1 ++ [':']) :: (g.2 ++ flattenGroups gs)

/-- The table entry a group should parse to: its class name with its box
lines converted to float tuples. -/
def parsedGroup (g : ClassName × List (List Char)) : ClassName × List (List PyFloat) :=
  (g.1, g.2.map fun l => (parseBoxLine l).getD [])

/-- A well-formed group: a nonempty class name of word/space characters, and
box lines that are not headers and whose tokens all convert to floats. -/
def wfGroup (g : ClassName × List (List Char)) : Prop :=
  g.1 ≠ [] ∧ (∀ c ∈ g.1, isWordSpace c = true) ∧
    ∀ l ∈ g.2, matchHeader l = none ∧ (parseBoxLine l).isSome

instance (g : ClassName × List (List Char)) : Decidable (wfGroup g) := by
  unfold wfGroup; infer_instance

theorem matchHeader_name (name : List Char) (hne : name ≠ [])
    (hws : ∀ c ∈ name, isWordSpace c = true) :
    matchHeader (name ++ [':']) = some name := by
  have hcolon : isWordSpace ':' = false := rfl
  have ht : (name ++ [':']).takeWhile isWordSpace = name := by
    rw [List.takeWhile_append_of_pos hws, List.takeWhile_cons_of_neg (by simp [hcolon]),
      List.append_nil]
  have hd : (name ++ [':']).drop name.length = [':'] := List.drop_left name [':']
  simp only [matchHeader, ht, hd]
  rw [if_neg (by simp [List.isEmpty_iff, hne])]

theorem dictMem_nil (k : ClassName) : dictMem k [] = false := rfl

theorem dictMem_cons (k : ClassName) (e : ClassName × List (List PyFloat)) (t : BoxTable) :
    dictMem k (e :: t) = (decide (e.1 = k) || dictMem k t) := by
  simp [dictMem]

theorem dictMem_append (k : ClassName) (t1 t2 : BoxTable) :
    dictMem k (t1 ++ t2) = (dictMem k t1 || dictMem k t2) := by
  simp [dictMem, List.any_append]

theorem dictSet_fresh (k : ClassName) (v : List (List PyFloat)) (t : BoxTable)
    (h : dictMem k t = false) : dictSet k v t = t ++ [(k, v)] := by
  induction t with
  | nil => rfl
  | cons e rest ih =>
    rw [dictMem_cons, Bool.or_eq_false_iff] at h
    rw [dictSet, if_neg (by simpa using h.1), ih h.2, List.cons_append]

theorem dictSet_mid (k : ClassName) (w v : List (List PyFloat)) (pre post : BoxTable)
    (h : dictMem k pre = false) :
    dictSet k w (pre ++ (k, v) :: post) = pre ++ (k, w) :: post := by
  induction pre with
  | nil => simp [dictSet]
  | cons e rest ih =>
    rw [dictMem_cons, Bool.or_eq_false_iff] at h
    rw [List.cons_append, dictSet, if_neg (by simpa using h.1), ih h.2, List.cons_append]

theorem dictAppend_mid (k : ClassName) (b : List PyFloat) (v : List (List PyFloat))
    (pre post : BoxTable) (h : dictMem k pre = false) :
    dictAppend k b (pre ++ (k, v) :: post) = pre ++ (k, v ++ [b]) :: post := by
  induction pre with
  | nil => simp [dictAppend]
  | cons e rest ih =>
    rw [dictMem_cons, Bool.or_eq_false_iff] at h
    rw [List.cons_append, dictAppend, if_neg (by simpa using h.1), ih h.2, List.cons_append]

theorem dictMem_mid (k : ClassName) (v : List (List PyFloat)) (pre post : BoxTable) :
    dictMem k (pre ++ (k, v) :: post) = true := by
  simp [dictMem, List.any_append]

theorem dictFind_some_mem (k : ClassName) (v : List (List PyFloat)) (t : BoxTable)
    (h : dictFind k t = some v) : (k, v) ∈ t := by
  induction t with
  | nil => simp [dictFind] at h
  | cons e rest ih =>
    rw [dictFind] at h
    by_cases he : e.1 = k
    · rw [if_pos he] at h
      injection h with h
      exact List.mem_cons.mpr (Or.inl (by rw [← he, ← h]))
    · rw [if_neg he] at h
      exact List.mem_cons_of_mem _ (ih h)

theorem loadGo_boxRun (bls rest : List (List Char)) (c : ClassName)
    (pre post : BoxTable) (v : List (List PyFloat))
    (hpre : dictMem c pre = false)
    (hbl : ∀ l ∈ bls, matchHeader l = none ∧ (parseBoxLine l).isSome) :
    loadGo (bls ++ rest) (some c) (pre ++ (c, v) :: post)
      = loadGo rest (some c)
          (pre ++ (c, v ++ bls.map fun l => (parseBoxLine l).getD []) :: post) := by
  induction bls generalizing v with
  | nil => simp
  | cons l bls ih =>
    obtain ⟨hm, hp⟩ := hbl l (List.mem_cons_self l bls)
    obtain ⟨b, hb⟩ := Option.isSome_iff_exists.mp hp
    rw [List.cons_append]
    rw [show loadGo (l :: (bls ++ rest)) (some c) (pre ++ (c, v) :: post)
        = loadGo (bls ++ rest) (some c) (dictAppend c b (pre ++ (c, v) :: post)) from by
      simp [loadGo, hm, hb, dictMem_mid]]
    rw [dictAppend_mid c b v pre post hpre]
    rw [ih (v ++ [b]) fun l hl => hbl l (List.mem_cons_of_mem _ hl)]
    simp [hb]

theorem loadGo_boxAll (bls : List (List Char)) (c : ClassName) (pre post : BoxTable)
    (v : List (List PyFloat)) (hpre : dictMem c pre = false)
    (hbl : ∀ l ∈ bls, matchHeader l = none ∧ (parseBoxLine l).isSome) :
    loadGo bls (some c) (pre ++ (c, v) :: post)
      = .ok (pre ++ (c, v ++ bls.map fun l => (parseBoxLine l).getD []) :: post) := by
  have h := loadGo_boxRun bls [] c pre post v hpre hbl
  rw [List.append_nil] at h
  exact h.trans rfl

theorem loadGo_groups (groups : List (ClassName × List (List Char))) :
    ∀ (classes : BoxTable) (cur : Option ClassName),
    (∀ g ∈ groups, wfGroup g) →
    (∀ g ∈ groups, dictMem g.1 classes = false) →
    (groups.map Prod.fst).Nodup →
    loadGo (flattenGroups groups) cur classes = .ok (classes ++ groups.map parsedGroup) := by
  induction groups with
  | nil => intro classes cur _ _ _; simp [flattenGroups, loadGo]
  | cons g gs ih =>
    intro classes cur hwf hfresh hdist
    obtain ⟨hne, hws, hbl⟩ := hwf g (List.mem_cons_self g gs)
    rw [List.map_cons, List.nodup_cons] at hdist
    rw [flattenGroups]
    rw [show loadGo ((g.1 ++ [':']) :: (g.2 ++ flattenGroups gs)) cur classes
        = loadGo (g.2 ++ flattenGroups gs) (some g.1) (dictSet g.1 [] classes) from by
      simp [loadGo, matchHeader_name g.1 hne hws]]
    rw [dictSet_fresh g.1 [] classes (hfresh g (List.mem_cons_self g gs))]
    rw [show classes ++ [(g.1, ([] : List (List PyFloat)))]
        = classes ++ ((g.1, ([] : List (List PyFloat))) :: []) from rfl]
    rw [loadGo_boxRun g.2 (flattenGroups gs) g.1 classes [] []
      (hfresh g (List.mem_cons_self g gs)) hbl]
    rw [ih (classes ++ [(g.1, [] ++ g.2.map fun l => (parseBoxLine l).getD [])])
      (some g.1)
      (fun g' hg' => hwf g' (List.mem_cons_of_mem _ hg'))
      (fun g' hg' => by
        rw [dictMem_append, Bool.or_eq_false_iff]
        refine ⟨hfresh g' (List.mem_cons_of_mem _ hg'), ?_⟩
        rw [dictMem_cons, dictMem_nil, Bool.or_false]
        simp only [decide_eq_false_iff_not]
        intro he
        apply hdist.1
        rw [show g.1 = g'.1 from he]
        exact List.mem_map_of_mem Prod.fst hg')
      hdist.2]
    rw [List.append_assoc]
    rfl

theorem loadGo_error_of_badline :
    ∀ (lines : List (List Char)) (cur : Option ClassName) (classes : BoxTable),
    (∃ l ∈ lines, matchHeader l = none ∧ parseBoxLine l = none) →
    ∃ e, loadGo lines cur classes = .error e := by
  intro lines
  induction lines with
  | nil => intro _ _ h; simp at h
  | cons l0 rest ih =>
    intro cur classes h
    obtain ⟨l, hl, hm, hp⟩ := h
    rcases List.mem_cons.mp hl with rfl | hmem
    · exact ⟨.valueError, by simp [loadGo, hm, hp]⟩
    · cases hmh : matchHeader l0 with
      | some name =>
        simpa [loadGo, hmh] using
          ih (some name) (dictSet name [] classes) ⟨l, hmem, hm, hp⟩
      | none =>
        cases hpb : parseBoxLine l0 with
        | none => exact ⟨.valueError, by simp [loadGo, hmh, hpb]⟩
        | some b =>
          cases cur with
          | none => exact ⟨.keyError, by simp [loadGo, hmh, hpb]⟩
          | some c =>
            by_cases hdm : dictMem c classes = true
            · simpa [loadGo, hmh, hpb, hdm] using
                ih (some c) (dictAppend c b classes) ⟨l, hmem, hm, hp⟩
            · exact ⟨.keyError, by simp [loadGo, hmh, hpb, hdm]⟩

theorem drawBoxes_ok (boxes : List (List PyFloat)) :
    ∀ (im : PILImage) (color : List Char),
    (∀ b ∈ boxes, b.length = 4) →
    ∃ im2, drawBoxes im boxes color = .ok im2 := by
  induction boxes with
  | nil => intro im color _; exact ⟨im, rfl⟩
  | cons b rest ih =>
    intro im color h
    have hb := h b (List.mem_cons_self b rest)
    match b, hb with
    | [y1, x1, y2, x2], _ =>
      exact ih (drawBox im y1 x1 y2 x2 color) color
        fun b' hb' => h b' (List.mem_cons_of_mem _ hb')

theorem tdiv_eq_ratTrunc (a : ℤ) (d : ℕ) (hd : d ≠ 0) :
    Int.tdiv a (d : ℤ) = ratTrunc ((a : ℚ) / (d : ℚ)) := by
  have hd0 : (0 : ℚ) < (d : ℚ) := by exact_mod_cast Nat.pos_of_ne_zero hd
  rcases le_or_lt 0 a with ha | ha
  · rw [Int.tdiv_eq_ediv ha (by exact_mod_cast Nat.zero_le d)]
    rw [ratTrunc, if_neg (not_lt.mpr (div_nonneg (by exact_mod_cast ha) hd0.le))]
    rw [Rat.floor_intCast_div_natCast]
  · have hswap : Int.tdiv a (d : ℤ) = -Int.tdiv (-a) (d : ℤ) := by
      rw [Int.neg_tdiv, neg_neg]
    rw [hswap, Int.tdiv_eq_ediv (by omega) (by exact_mod_cast Nat.zero_le d)]
    rw [ratTrunc, if_pos (div_neg_of_neg_of_pos (by exact_mod_cast ha) hd0)]
    rw [show ((a : ℚ) / (d : ℚ)) = -(((-a : ℤ) : ℚ) / (d : ℚ)) by push_cast; ring]
    rw [Int.ceil_neg, Rat.floor_intCast_div_natCast]

theorem pyInt_eq_trunc (w : ℕ) (x : PyFloat) (hd : x.den ≠ 0) :
    pyInt w x = ratTrunc ((w : ℚ) * x.toRat) := by
  rw [pyInt, tdiv_eq_ratTrunc _ _ hd, PyFloat.toRat]
  congr 1
  push_cast
  ring

theorem loadGo_header (line : List Char) (rest : List (List Char)) (cur : Option ClassName)
    (classes : BoxTable) (name : ClassName) (h : matchHeader line = some name) :
    loadGo (line :: rest) cur classes = loadGo rest (some name) (dictSet name [] classes) := by
  simp [loadGo, h]

theorem renderItems_absent_key (classes : BoxTable)
    (hwf : ∀ e ∈ classes, ∀ b ∈ e.2, b.length = 4) :
    ∀ (items : List (Option (ClassName × List Char))) (im : PILImage),
    (∀ it ∈ items, it.isSome = true) →
    (∃ p, some p ∈ items ∧ dictFind p.1 classes = none) →
    renderItems classes items im = .error .keyError := by
  intro items
  induction items with
  | nil =>
    intro im _ habs
    obtain ⟨p, hp, _⟩ := habs
    simp at hp
  | cons it rest ih =>
    intro im hsome habs
    obtain ⟨p, hp, hfindp⟩ := habs
    obtain ⟨q, hq⟩ := Option.isSome_iff_exists.mp (hsome it (List.mem_cons_self it rest))
    subst hq
    obtain ⟨name, color⟩ := q
    cases hf : dictFind name classes with
    | none => simp [renderItems, hf]
    | some boxes =>
      have hlen : ∀ b ∈ boxes, b.length = 4 :=
        hwf (name, boxes) (dictFind_some_mem name boxes classes hf)
      obtain ⟨im2, h2⟩ := drawBoxes_ok boxes im color hlen
      rw [show renderItems classes (some (name, color) :: rest) im
          = renderItems classes rest im2 from by simp [renderItems, hf, h2]]
      apply ih im2 fun it' h' => hsome it' (List.mem_cons_of_mem _ h')
      rcases List.mem_cons.mp hp with heq | hmem
      · exfalso
        injection heq with heq
        rw [heq] at hfindp
        rw [hf] at hfindp
        exact Option.noConfusion hfindp
      · exact ⟨p, hmem, hfindp⟩

/-- C1: for every well-formed box-table text (a sequence of groups, each a
class header followed by its box lines, with pairwise-distinct class names),
`load_boxes` returns the table whose keys are the class names in
first-appearance (file) order and whose value lists are the boxes of each
class in file order, each box the tuple of parsed floats. -/
theorem loadBoxes_wellFormed_table (groups : List (ClassName × List (List Char)))
    (hwf : ∀ g ∈ groups, wfGroup g)
    (hdist : (groups.map Prod.fst).Nodup) :
    loadBoxes (flattenGroups groups) = .ok (groups.map parsedGroup) := by
  have h := loadGo_groups groups [] none hwf (fun g _ => dictMem_nil g.1) hdist
  rw [loadBoxes, h, List.nil_append]

/-- Witness for C1: the spec's concrete table, class `A` with box
`(0.1,0.1,0.2,0.2)` and class `B` with boxes `(0.3,0.3,0.4,0.4)` and
`(0.5,0.5,0.6,0.6)`, parses to exactly those two classes in that order. -/
theorem loadBoxes_wellFormed_table_witness :
    loadBoxes (flattenGroups
        [("A".toList, ["0.1 0.1 0.2 0.2".toList]),
         ("B".toList, ["0.3 0.3 0.4 0.4".toList, "0.5 0.5 0.6 0.6".toList])])
      = .ok [("A".toList, [[mkFloat 1 10, mkFloat 1 10, mkFloat 2 10, mkFloat 2 10]]),
             ("B".toList, [[mkFloat 3 10, mkFloat 3 10, mkFloat 4 10, mkFloat 4 10],
                           [mkFloat 5 10, mkFloat 5 10, mkFloat 6 10, mkFloat 6 10]])] :=
  (loadBoxes_wellFormed_table _ (by decide) (by decide)).trans (by decide)

/-- C2 counterexample: a box line with 3 numeric tokens does NOT fail the
parse; `load_boxes` has no arity check and returns a table holding the
3-tuple. -/
theorem loadBoxes_three_token_ok :
    loadBoxes ["A:".toList, "0.1 0.2 0.3".toList]
      = .ok [("A".toList, [[mkFloat 1 10, mkFloat 1 5, mkFloat 3 10]])] := by
  decide

/-- C2 amended: a non-numeric token on a non-header line fails the whole
parse with an error (no table is returned); a line with a wrong count of
tokens that are all numeric is accepted (see the counterexample). -/
theorem loadBoxes_nonNumeric_error (lines : List (List Char))
    (h : ∃ l ∈ lines, matchHeader l = none ∧ parseBoxLine l = none) :
    ∃ e, loadBoxes lines = .error e :=
  loadGo_error_of_badline lines none [] h

/-- Witness for C2: a table whose second line holds the non-numeric token
`x` fails to parse. -/
theorem loadBoxes_nonNumeric_error_witness :
    ∃ e, loadBoxes ["A:".toList, "0.1 x 0.3 0.4".toList] = .error e :=
  loadBoxes_nonNumeric_error _ (by decide)

/-- C3 counterexample: a blank line after a class header does NOT fail the
parse; it is split into zero tokens and appended as an empty tuple. -/
theorem loadBoxes_blank_line_ok :
    loadBoxes ["A:".toList, "".toList] = .ok [("A".toList, [[]])] := by
  decide

/-- C3 amended: a blank line never raises a conversion error; with a current
class it appends the empty tuple and scanning continues, while before any
class header it raises `KeyError`. -/
theorem loadGo_blank_line (rest : List (List Char)) (classes : BoxTable) (c : ClassName)
    (h : dictMem c classes = true) :
    loadGo ("".toList :: rest) (some c) classes
        = loadGo rest (some c) (dictAppend c [] classes) ∧
      loadGo ("".toList :: rest) none classes = .error .keyError := by
  constructor
  · rw [show loadGo ("".toList :: rest) (some c) classes
        = (if dictMem c classes then loadGo rest (some c) (dictAppend c [] classes)
           else .error .keyError) from rfl]
    rw [if_pos h]
  · rfl

/-- Witness for C3: with current class `A` present, the blank line appends
the empty tuple to `A`'s list. -/
theorem loadGo_blank_line_witness :
    loadGo ["".toList] (some "A".toList) [("A".toList, [])]
      = .ok [("A".toList, [[]])] :=
  ((loadGo_blank_line [] [("A".toList, [])] "A".toList (by decide)).1).trans (by decide)

/-- C4: with no explicit item list, the selector pairs every class of the
table, in first-appearance order, with the default color; in particular over
classes `A` and `B` with default `#FFFFFF` it yields
`[("A","#FFFFFF"),("B","#FFFFFF")]`. -/
theorem selectItems_default_all (classes : BoxTable) (color : List Char) :
    selectItems none classes color
        = (classes.map Prod.fst).map (fun nm => some (nm, color)) ∧
      selectItems none [("A".toList, []), ("B".toList, [])] "#FFFFFF".toList
        = [some ("A".toList, "#FFFFFF".toList), some ("B".toList, "#FFFFFF".toList)] := by
  constructor
  · simp [selectItems]
  · decide

/-- C5: a specifier that is a nonempty word/space run, optionally followed
directly by `#` plus six hex digits, parses to the run paired with the
inline color when present and with the default color otherwise. -/
theorem parseItem_inline_color (name hex color : List Char)
    (hne : name ≠ []) (hws : ∀ c ∈ name, isWordSpace c = true)
    (hlen : hex.length = 6) (hhex : ∀ c ∈ hex, pyIsHex c = true) :
    parseItem (name ++ '#' :: hex) color = some (name, '#' :: hex) ∧
      parseItem name color = some (name, color) := by
  have hsharp : isWordSpace '#' = false := rfl
  have hts : (name ++ '#' :: hex).takeWhile isWordSpace = name := by
    rw [List.takeWhile_append_of_pos hws, List.takeWhile_cons_of_neg (by simp [hsharp]),
      List.append_nil]
  have hts2 : name.takeWhile isWordSpace = name := by
    have h : (name ++ ([] : List Char)).takeWhile isWordSpace
        = name ++ ([] : List Char).takeWhile isWordSpace :=
      List.takeWhile_append_of_pos hws
    simpa using h
  have htk : hex.take 6 = hex := by rw [← hlen]; exact List.take_length hex
  have hemp : name.isEmpty = false := by simp [List.isEmpty_iff, hne]
  constructor
  · simp only [parseItem, hts, hemp, Bool.false_eq_true, if_false,
      List.drop_left, inlineColor, htk]
    rw [if_pos (by simp [hlen, List.all_eq_true.mpr hhex])]
    rfl
  · simp only [parseItem, hts2, hemp, Bool.false_eq_true, if_false,
      List.drop_length, inlineColor]
    rfl

/-- Witness for C5: `"A#112233"` yields `("A","#112233")` and `"B"` yields
`("B","#FFFFFF")` under default color `#FFFFFF`. -/
theorem parseItem_inline_color_witness :
    parseItem ("A".toList ++ '#' :: "112233".toList) "#FFFFFF".toList
        = some ("A".toList, '#' :: "112233".toList) ∧
      parseItem "B".toList "#FFFFFF".toList = some ("B".toList, "#FFFFFF".toList) :=
  ⟨(parseItem_inline_color "A".toList "112233".toList "#FFFFFF".toList
      (by decide) (by decide) (by decide) (by decide)).1,
   (parseItem_inline_color "B".toList "112233".toList "#FFFFFF".toList
      (by decide) (by decide) (by decide) (by decide)).2⟩

/-- C6: the renderer maps a box to pixel corners by multiplying each
normalized fraction by the image width (for x) or height (for y) and
truncating toward zero; for a 100x200 image and box `(0.1,0.2,0.3,0.4)` the
rectangle spans `(20,20)` to `(40,60)`. -/
theorem drawBoxes_pixel_mapping (im : PILImage) (y1 x1 y2 x2 : PyFloat)
    (rest : List (List PyFloat)) (color : List Char)
    (hd : y1.den ≠ 0 ∧ x1.den ≠ 0 ∧ y2.den ≠ 0 ∧ x2.den ≠ 0) :
    drawBoxes im ([y1, x1, y2, x2] :: rest) color
        = drawBoxes
            { im with rects := im.rects ++
                [(ratTrunc ((im.width : ℚ) * x1.toRat), ratTrunc ((im.height : ℚ) * y1.toRat),
                  ratTrunc ((im.width : ℚ) * x2.toRat), ratTrunc ((im.height : ℚ) * y2.toRat),
                  color)] }
            rest color ∧
      drawBoxes ⟨100, 200, []⟩ [[mkFloat 1 10, mkFloat 2 10, mkFloat 3 10, mkFloat 4 10]]
          "#FFFFFF".toList
        = .ok ⟨100, 200, [(20, 20, 40, 60, "#FFFFFF".toList)]⟩ := by
  constructor
  · rw [show drawBoxes im ([y1, x1, y2, x2] :: rest) color
        = drawBoxes (drawBox im y1 x1 y2 x2 color) rest color from rfl]
    rw [drawBox, pyInt_eq_trunc im.width x1 hd.2.1, pyInt_eq_trunc im.height y1 hd.1,
      pyInt_eq_trunc im.width x2 hd.2.2.2, pyInt_eq_trunc im.height y2 hd.2.2.1]
  · decide

/-- Witness for C6: the concrete 100x200 image with box `(0.1,0.2,0.3,0.4)`
draws the rectangle `(20,20)`-`(40,60)`. -/
theorem drawBoxes_pixel_mapping_witness :
    drawBoxes ⟨100, 200, []⟩ [[mkFloat 1 10, mkFloat 2 10, mkFloat 3 10, mkFloat 4 10]]
        "#FFFFFF".toList
      = .ok ⟨100, 200, [(20, 20, 40, 60, "#FFFFFF".toList)]⟩ :=
  (drawBoxes_pixel_mapping ⟨100, 200, []⟩ (mkFloat 1 10) (mkFloat 2 10) (mkFloat 3 10)
    (mkFloat 4 10) [] "#FFFFFF".toList (by decide)).2

/-- C7: when some requested item names a class absent from the table (and
the table's boxes are well-formed 4-tuples, the requested items being
well-parsed), the render loop fails with `KeyError` and nothing is ever
saved; the absent class is not silently skipped. -/
theorem renderItems_unknown_class (classes : BoxTable)
    (items : List (Option (ClassName × List Char))) (im : PILImage)
    (hwf : ∀ e ∈ classes, ∀ b ∈ e.2, b.length = 4)
    (hsome : ∀ it ∈ items, it.isSome = true)
    (habs : ∃ p, some p ∈ items ∧ dictFind p.1 classes = none) :
    renderItems classes items im = .error .keyError ∧
      ∀ out, savedImage classes items im out = none := by
  have h1 := renderItems_absent_key classes hwf items im hsome habs
  exact ⟨h1, fun out => by simp [savedImage, h1]⟩

/-- Witness for C7: requesting class `C` against a table holding only `A`
raises `KeyError`, and no output is saved even when a path was given. -/
theorem renderItems_unknown_class_witness :
    renderItems [("A".toList, [[mkFloat 1 10, mkFloat 1 10, mkFloat 2 10, mkFloat 2 10]])]
        [some ("C".toList, "#FFFFFF".toList)] ⟨100, 200, []⟩ = .error .keyError ∧
      savedImage [("A".toList, [[mkFloat 1 10, mkFloat 1 10, mkFloat 2 10, mkFloat 2 10]])]
        [some ("C".toList, "#FFFFFF".toList)] ⟨100, 200, []⟩ (some "out.png".toList) = none :=
  ⟨(renderItems_unknown_class _ _ _ (by decide) (by decide)
      ⟨("C".toList, "#FFFFFF".toList), by decide, by decide⟩).1,
   (renderItems_unknown_class _ _ _ (by decide) (by decide)
      ⟨("C".toList, "#FFFFFF".toList), by decide, by decide⟩).2 (some "out.png".toList)⟩

/-- C8: an input whose first line is a box line (so the box precedes every
class header) terminates the parse with an unhandled error: `KeyError` from
the undefined current class when the tokens are numeric, and `ValueError`
(indistinguishable in user-visible behavior) when they are not. -/
theorem loadBoxes_box_before_header (l : List Char) (rest : List (List Char))
    (h : matchHeader l = none) :
    ((parseBoxLine l).isSome = true → loadBoxes (l :: rest) = .error .keyError) ∧
      (parseBoxLine l = none → loadBoxes (l :: rest) = .error .valueError) := by
  constructor
  · intro hs
    obtain ⟨b, hb⟩ := Option.isSome_iff_exists.mp hs
    simp [loadBoxes, loadGo, h, hb]
  · intro hn
    simp [loadBoxes, loadGo, h, hn]

/-- Witness for C8: a numeric box line with no preceding header raises
`KeyError`. -/
theorem loadBoxes_box_before_header_witness :
    loadBoxes ["0.1 0.2 0.3 0.4".toList] = .error .keyError :=
  (loadBoxes_box_before_header "0.1 0.2 0.3 0.4".toList [] (by decide)).1 (by decide)

/-- C9: when a class header reappears, the reassignment `classes[current]=[]`
empties that class's list while keeping its original position, so the final
table holds only the boxes after the last occurrence of the header, at the
position of its first appearance. -/
theorem loadBoxes_duplicate_class (n m : ClassName) (bls1 bls2 bls3 : List (List Char))
    (hn : n ≠ []) (hnws : ∀ c ∈ n, isWordSpace c = true)
    (hm : m ≠ []) (hmws : ∀ c ∈ m, isWordSpace c = true)
    (hnm : n ≠ m)
    (hb1 : ∀ l ∈ bls1, matchHeader l = none ∧ (parseBoxLine l).isSome)
    (hb2 : ∀ l ∈ bls2, matchHeader l = none ∧ (parseBoxLine l).isSome)
    (hb3 : ∀ l ∈ bls3, matchHeader l = none ∧ (parseBoxLine l).isSome) :
    loadBoxes (flattenGroups [(n, bls1), (m, bls2), (n, bls3)])
      = .ok [(n, bls3.map fun l => (parseBoxLine l).getD []),
             (m, bls2.map fun l => (parseBoxLine l).getD [])] := by
  have hmn : dictMem m [(n, bls1.map fun l => (parseBoxLine l).getD [])] = false := by
    rw [dictMem_cons, dictMem_nil, Bool.or_false, decide_eq_false_iff_not]
    exact hnm
  rw [loadBoxes]
  simp only [flattenGroups, List.append_nil]
  rw [loadGo_header _ _ _ _ n (matchHeader_name n hn hnws)]
  rw [show dictSet n [] [] = [] ++ (n, ([] : List (List PyFloat))) :: [] from rfl]
  rw [loadGo_boxRun bls1 _ n [] [] [] (dictMem_nil n) hb1]
  simp only [List.nil_append]
  rw [loadGo_header _ _ _ _ m (matchHeader_name m hm hmws)]
  rw [dictSet_fresh m [] _ hmn]
  rw [loadGo_boxRun bls2 _ m [(n, bls1.map fun l => (parseBoxLine l).getD [])] [] []
    hmn hb2]
  simp only [List.nil_append, List.singleton_append]
  rw [loadGo_header _ _ _ _ n (matchHeader_name n hn hnws)]
  rw [show dictSet n []
        ((n, bls1.map fun l => (parseBoxLine l).getD [])
          :: (m, bls2.map fun l => (parseBoxLine l).getD []) :: [])
      = (n, ([] : List (List PyFloat)))
          :: (m, bls2.map fun l => (parseBoxLine l).getD []) :: [] from by
    simp [dictSet]]
  rw [show ((n, ([] : List (List PyFloat)))
        :: (m, bls2.map fun l => (parseBoxLine l).getD []) :: [])
      = [] ++ (n, ([] : List (List PyFloat)))
          :: ((m, bls2.map fun l => (parseBoxLine l).getD []) :: []) from rfl]
  rw [loadGo_boxAll bls3 n [] _ [] (dictMem_nil n) hb3]
  simp

/-- Witness for C9: the header `A` appearing before and after `B`
keeps `A` first in the table but retains only the boxes of its last
occurrence. -/
theorem loadBoxes_duplicate_class_witness :
    loadBoxes (flattenGroups
        [("A".toList, ["0.1 0.1 0.2 0.2".toList]),
         ("B".toList, ["0.3 0.3 0.4 0.4".toList]),
         ("A".toList, ["0.5 0.5 0.6 0.6".toList])])
      = .ok [("A".toList, [[mkFloat 5 10, mkFloat 5 10, mkFloat 6 10, mkFloat 6 10]]),
             ("B".toList, [[mkFloat 3 10, mkFloat 3 10, mkFloat 4 10, mkFloat 4 10]])] :=
  (loadBoxes_duplicate_class "A".toList "B".toList
      ["0.1 0.1 0.2 0.2".toList] ["0.3 0.3 0.4 0.4".toList] ["0.5 0.5 0.6 0.6".toList]
      (by decide) (by decide) (by decide) (by decide) (by decide)
      (by decide) (by decide) (by decide)).trans (by decide)

/-- C10 counterexample: the specifier `"A#1234567"` has a `#`-suffix that is
not exactly six hex digits, yet `parse_item` returns the inline color
`"#123456"` (the first six hex digits), not the default color. -/
theorem parseItem_overlong_color :
    parseItem "A#1234567".toList "#FFFFFF".toList
        = some ("A".toList, "#123456".toList) ∧
      "#123456".toList ≠ "#FFFFFF".toList := by
  decide

/-- C10 amended: for a specifier starting with a word/space character, when
the text after the maximal word/space run does not BEGIN with `#` plus six
hex digits, `parse_item` returns the run paired with the default color,
ignoring the malformed color text; when it does so begin, the first seven
characters become the color and anything after them is ignored. -/
theorem parseItem_malformed_color_defaults (c0 : Char) (t color : List Char)
    (hws : isWordSpace c0 = true)
    (hnc : inlineColor ((c0 :: t).drop ((c0 :: t).takeWhile isWordSpace).length) = none) :
    parseItem (c0 :: t) color = some ((c0 :: t).takeWhile isWordSpace, color) := by
  have hrun : (c0 :: t).takeWhile isWordSpace = c0 :: t.takeWhile isWordSpace :=
    List.takeWhile_cons_of_pos hws
  simp only [parseItem, hnc, Option.getD_none]
  rw [if_neg (by simp [List.isEmpty_iff, hrun])]

/-- Witness for C10: `"A#12"` falls back to the default color `#FFFFFF`. -/
theorem parseItem_malformed_color_defaults_witness :
    parseItem ('A' :: "#12".toList) "#FFFFFF".toList
      = some ("A".toList, "#FFFFFF".toList) :=
  (parseItem_malformed_color_defaults 'A' "#12".toList "#FFFFFF".toList
    (by decide) (by decide)).trans (by decide)

end ShowNms
